import Mathlib

/-!
Verification development for the botcity-rpa-template repository.

Shallow embedding of:
* `BotRunnerMaestro.run` (src/botcity/botcity_maestro.py) and
  `BotRunnerLocal.run` (src/botcity/botcity_local.py): the retry loop is
  modelled as a state-passing function over an oracle environment.  Each
  collaborator call that can raise (the task body, the SharePoint uploads)
  is an oracle indexed by the loop-iteration number; the loop produces the
  trace of observable collaborator calls together with the exception, if
  any, that propagates out of `run()`.
* `SharePointApi` (src/core/sharepoint_wrapper.py): folder resolution by
  the regular expression `^<folder_log>\s+-`, the ensure-subfolder step and
  the per-file collision-resolution loop of `upload_files`, over an explicit
  remote-store state.
-/

namespace BotcityRPA

/-- Parameter tuple passed to the SQL insert in
`BotRunnerMaestro._insert_database_log_execution` (botcity_maestro.py
lines 260-268): `[BOT_NAME, DEVELOPER, SECTOR, STAKEHOLDER, RECURRENCE,
time, items_processed]`. -/
structure DbParams where
  botName : String
  developer : String
  sector : String
  stakeholder : String
  recurrence : String
  executionTime : String
  itemsProcessed : Int
deriving DecidableEq, Repr

/-- Observable collaborator calls made by the two `run()` loops. -/
inductive Event where
  /-- `self._execute_bot_task()` at loop iteration `i`. -/
  | taskCall (i : Nat)
  /-- `self.sharepoint.upload_files([...])` in the success branch. -/
  | sharepointUpload (i : Nat)
  /-- `self.sharepoint.list_folders_by_number()` (local runner only). -/
  | listFolders (i : Nat)
  /-- `self._insert_database_log_execution(items_processed)`. -/
  | dbInsert (params : DbParams)
  /-- `self.maestro.finish_task(..., SUCCESS, ...)`. -/
  | finishSuccess
  /-- `self.maestro.error(task_id, e, attachments=[log_path])`. -/
  | errorReport (err : String) (attachments : List String)
  /-- `self.maestro.finish_task(..., FAILED, ...)` carrying the error text. -/
  | finishFailed (err : String)
  /-- `self.sharepoint.upload_files([...])` in the exhausted-failure branch. -/
  | finalUpload (i : Nat)
  /-- `self._add_log_file_into_maestro()` in the `finally` block. -/
  | postArtifact
deriving DecidableEq, Repr

/-- Oracle environment for `BotRunnerMaestro.run`.  Settings fields mirror
`settings.*`; the `Nat → _` fields give the outcome of the collaborator
call made at loop iteration `i` (`none` = the call returns normally,
`some e` = the call raises exception text `e`).  `task i` is the outcome of
the `i`-th invocation of `_execute_bot_task` (`main` returns
`Optional[int]`). -/
structure Env where
  maxRetries : Int
  useSharepoint : Bool
  useDatabase : Bool
  botName : String
  developer : String
  sector : String
  stakeholder : String
  recurrence : String
  logPath : String
  task : Nat → Except String (Option Int)
  uploadOnSuccess : Nat → Option String
  uploadOnFailure : Nat → Option String
  execTime : Nat → String

/-- The database-logging block shared verbatim by both runners
(botcity_maestro.py lines 333-339, botcity_local.py lines 261-267):
`if not settings.USE_DATABASE: ... elif items_processed is None or
items_processed <= 0: ... else: self._insert_database_log_execution(...)`. -/
def dbTrace (bn dev sec stk rec et : String) (useDb : Bool)
    (items : Option Int) : List Event :=
  if useDb then
    match items with
    | some v => if 0 < v then [Event.dbInsert ⟨bn, dev, sec, stk, rec, et, v⟩] else []
    | none => []
  else []

/-- Events of the success branch of one iteration of `BotRunnerMaestro.run`
(botcity_maestro.py lines 319-349 plus the `finally`): sharepoint upload
when `USE_SHAREPOINT`, the database insert when `USE_DATABASE` and
`items_processed` is neither `None` nor `<= 0`, the SUCCESS finish, and the
`finally` artifact post after `break`. -/
def successTrace (env : Env) (i : Nat) (items : Option Int) : List Event :=
  [Event.taskCall i]
    ++ (if env.useSharepoint then [Event.sharepointUpload i] else [])
    ++ dbTrace env.botName env.developer env.sector env.stakeholder
        env.recurrence (env.execTime i) env.useDatabase items
    ++ [Event.finishSuccess, Event.postArtifact]

/-- Events of the `except` handler before the exhaustion check
(botcity_maestro.py lines 357-365): `maestro.error` with the log file
attached, then the FAILED finish. -/
def failEvents (env : Env) (e : String) : List Event :=
  [Event.errorReport e [env.logPath], Event.finishFailed e]

/-- Tail of an exhausted iteration (botcity_maestro.py lines 367-373 plus
the `finally`): the best-effort sharepoint upload when `USE_SHAREPOINT`
(whose own exception, if any, replaces the task error), then `raise e`,
with the `finally` artifact post running in either case. -/
def exhaustedTail (env : Env) (i : Nat) (e : String) : List Event × Option String :=
  if env.useSharepoint then
    ([Event.finalUpload i, Event.postArtifact],
      match env.uploadOnFailure i with
      | some e2 => some e2
      | none => some e)
  else
    ([Event.postArtifact], some e)

/-- The `while attempts <= settings.MAX_RETRIES` loop of
`BotRunnerMaestro.run` (botcity_maestro.py lines 313-379).  `i` is the
value of `attempts` at the head of the iteration (each failure increments
`attempts` by one, so `attempts` equals the iteration index).  The `fuel`
argument bounds the recursion; `runMaestro` supplies `(MAX_RETRIES+1).toNat`,
which is exact: fuel reaches `0` only when the loop guard is false.
Returns the event trace and the exception propagating out of `run()`
(`none` = normal return). -/
def runLoopF (env : Env) : Nat → Nat → List Event × Option String
  | _, 0 => ([], none)
  | i, fuel + 1 =>
    if (i : Int) ≤ env.maxRetries then
      match env.task i with
      | .ok items =>
        match (if env.useSharepoint then env.uploadOnSuccess i else none) with
        | none => (successTrace env i items, none)
        | some e =>
          -- the upload raised inside the `try`: the `except` handler runs
          let pre := [Event.taskCall i, Event.sharepointUpload i] ++ failEvents env e
          if (i : Int) + 1 > env.maxRetries then
            let t := exhaustedTail env i e
            (pre ++ t.1, t.2)
          else
            let r := runLoopF env (i + 1) fuel
            (pre ++ [Event.postArtifact] ++ r.1, r.2)
      | .error e =>
        let pre := Event.taskCall i :: failEvents env e
        if (i : Int) + 1 > env.maxRetries then
          let t := exhaustedTail env i e
          (pre ++ t.1, t.2)
        else
          let r := runLoopF env (i + 1) fuel
          (pre ++ [Event.postArtifact] ++ r.1, r.2)
    else ([], none)

/-- `BotRunnerMaestro.run()`: the loop starting at `attempts = 0`. -/
def runMaestro (env : Env) : List Event × Option String :=
  runLoopF env 0 (env.maxRetries + 1).toNat

/-- Oracle environment for `BotRunnerLocal.run` (botcity_local.py).  The
local runner has no Maestro reporting in its handler and calls
`list_folders_by_number` and `upload_files` unconditionally in the success
branch. -/
structure EnvL where
  maxRetries : Int
  useDatabase : Bool
  botName : String
  developer : String
  sector : String
  stakeholder : String
  recurrence : String
  task : Nat → Except String (Option Int)
  listFoldersCall : Nat → Option String
  uploadCall : Nat → Option String
  execTime : Nat → String

/-- Success-branch events of one iteration of `BotRunnerLocal.run`
(botcity_local.py lines 247-269): folder listing, upload, then the
database insert under the same condition as the maestro runner. -/
def localSuccessTrace (env : EnvL) (i : Nat) (items : Option Int) : List Event :=
  [Event.taskCall i, Event.listFolders i, Event.sharepointUpload i]
    ++ dbTrace env.botName env.developer env.sector env.stakeholder
        env.recurrence (env.execTime i) env.useDatabase items

/-- The `while attempts <= settings.MAX_RETRIES` loop of
`BotRunnerLocal.run` (botcity_local.py lines 244-284).  The `except`
handler only increments the counter and either re-raises (when
`attempts > MAX_RETRIES`) or loops. -/
def runLocalF (env : EnvL) : Nat → Nat → List Event × Option String
  | _, 0 => ([], none)
  | i, fuel + 1 =>
    if (i : Int) ≤ env.maxRetries then
      match env.task i with
      | .error e =>
        if (i : Int) + 1 > env.maxRetries then ([Event.taskCall i], some e)
        else
          let r := runLocalF env (i + 1) fuel
          (Event.taskCall i :: r.1, r.2)
      | .ok items =>
        match env.listFoldersCall i with
        | some e =>
          if (i : Int) + 1 > env.maxRetries then
            ([Event.taskCall i, Event.listFolders i], some e)
          else
            let r := runLocalF env (i + 1) fuel
            (Event.taskCall i :: Event.listFolders i :: r.1, r.2)
        | none =>
          match env.uploadCall i with
          | some e =>
            if (i : Int) + 1 > env.maxRetries then
              ([Event.taskCall i, Event.listFolders i, Event.sharepointUpload i], some e)
            else
              let r := runLocalF env (i + 1) fuel
              (Event.taskCall i :: Event.listFolders i :: Event.sharepointUpload i :: r.1, r.2)
          | none => (localSuccessTrace env i items, none)
    else ([], none)

/-- `BotRunnerLocal.run()`: the loop starting at `attempts = 0`. -/
def runLocal (env : EnvL) : List Event × Option String :=
  runLocalF env 0 (env.maxRetries + 1).toNat

/-- `true` on the events that are invocations of the task body. -/
def isTaskCall : Event → Bool
  | .taskCall _ => true
  | _ => false

/-- Number of task-body invocations recorded in a trace. -/
def taskCount (t : List Event) : Nat := t.countP isTaskCall

/-- `true` on SUCCESS finish events. -/
def isFinishSuccess : Event → Bool
  | .finishSuccess => true
  | _ => false

/-- `true` on database-insert events. -/
def isDbInsert : Event → Bool
  | .dbInsert _ => true
  | _ => false

/-!
## SharePoint model (src/core/sharepoint_wrapper.py)
-/

/-- Python's `\s`: the whitespace class used by
`re.match(rf"^{self.folder_log}\s+-", name)`.  The pattern is a `str`
pattern without `re.ASCII`, so `\s` is Unicode-aware; it matches exactly
the characters for which CPython's `Py_UNICODE_ISSPACE` holds:
U+0009..U+000D, U+001C..U+001F, U+0020, U+0085, U+00A0, U+1680,
U+2000..U+200A, U+2028, U+2029, U+202F, U+205F and U+3000. -/
def isPySpace (c : Char) : Bool :=
  decide ((0x09 ≤ c.toNat ∧ c.toNat ≤ 0x0d) ∨
    (0x1c ≤ c.toNat ∧ c.toNat ≤ 0x1f) ∨
    c.toNat = 0x20 ∨ c.toNat = 0x85 ∨ c.toNat = 0xa0 ∨ c.toNat = 0x1680 ∨
    (0x2000 ≤ c.toNat ∧ c.toNat ≤ 0x200a) ∨
    c.toNat = 0x2028 ∨ c.toNat = 0x2029 ∨ c.toNat = 0x202f ∨
    c.toNat = 0x205f ∨ c.toNat = 0x3000)

/-- Strips an exact character-sequence front: `some rest` when
`cs = ps ++ rest`. -/
def dropExactChars : List Char → List Char → Option (List Char)
  | [], cs => some cs
  | _ :: _, [] => none
  | p :: ps, c :: cs => if c = p then dropExactChars ps cs else none

/-- Acceptance of `\s*-` at the front of the remaining characters (the
continuation of `\s+-` after its first whitespace character; the regex
match need not span the whole name, mirroring `re.match`). -/
def spaceDash : List Char → Bool
  | [] => false
  | c :: cs => if c = '-' then true else if isPySpace c then spaceDash cs else false

/-- Acceptance of `\s+-` at the front of the remaining characters. -/
def spaceRunDash : List Char → Bool
  | [] => false
  | c :: cs => isPySpace c && spaceDash cs

/-- `re.match(rf"^{self.folder_log}\s+-", name)` viewed as a Boolean
(`folder_log` values are department numbers such as `"10"`, free of regex
metacharacters, so the interpolation is a literal). -/
def spMatches (folderLog name : String) : Bool :=
  match dropExactChars folderLog.data name.data with
  | none => false
  | some rest => spaceRunDash rest

/-- Abstract state of the remote document store as seen by
`SharePointApi`: the folder names under `SHAREPOINT_ROOT_LOG_FOLDER`, the
subfolder names under each main folder, and the file names under each
`main/subfolder` path. -/
structure SPState where
  rootFolders : List String
  subfoldersOf : String → List String
  filesOf : String → String → List String

/-- Configuration of `SharePointApi` as used by `upload_files`:
`folder_log` (the department prefix) and `settings.BOT_NAME`. -/
structure SPConfig where
  folderLog : String
  botName : String

/-- Errors surfacing from `upload_files`. -/
inductive SPError where
  /-- `raise Exception(f"No folder found with prefix '{self.folder_log}'.")` -/
  | notFound (folderLog : String)
  /-- artifact of the bounded search in the collision loop (the source's
  `while` loop; unreachable at the fuel chosen by `finalNameFor`). -/
  | nameSearchGaveUp
deriving DecidableEq, Repr

/-- Observable remote mutations performed by `upload_files`. -/
inductive SPEvent where
  /-- `main_folder.folders.add(settings.BOT_NAME)` -/
  | createFolder (parent name : String)
  /-- `target_folder.upload_file(final_name, file_content)` -/
  | uploadFile (main sub finalName : String)
deriving DecidableEq, Repr

/-- `SharePointApi.list_folders_by_number` (sharepoint_wrapper.py lines
46-75): the root listing filtered by the regex. -/
def listFoldersByNumber (folderLog : String) (st : SPState) : List String :=
  st.rootFolders.filter (fun name => spMatches folderLog name)

/-- The head of `upload_files` (sharepoint_wrapper.py lines 114-118):
raise when no folder matches, otherwise use `matching_folders[0]`. -/
def resolveMainFolder (folderLog : String) (st : SPState) : Except SPError String :=
  match listFoldersByNumber folderLog st with
  | [] => .error (.notFound folderLog)
  | m :: _ => .ok m

/-- `os.path.basename` for the upload paths: the suffix after the last
path separator (the template targets Windows, where both `\` and `/`
separate). -/
def pathBase (s : String) : String :=
  ⟨s.data.foldl (fun acc c => if c = '/' || c = '\\' then [] else acc ++ [c]) []⟩

/-- Index of the last `'.'` in a character list, if any. -/
def lastDotIdx : List Char → Option Nat
  | [] => none
  | c :: cs =>
    match lastDotIdx cs with
    | some i => some (i + 1)
    | none => if c = '.' then some 0 else none

/-- `os.path.splitext` on a basename: split at the last dot provided some
earlier character of the name is not a dot (all-leading-dots names keep an
empty extension). -/
def splitExtChars (cs : List Char) : List Char × List Char :=
  match lastDotIdx cs with
  | none => (cs, [])
  | some d =>
    if (cs.take d).any (fun c => c ≠ '.') then (cs.take d, cs.drop d) else (cs, [])

/-- `name, ext = os.path.splitext(base_name)`. -/
def splitExt (s : String) : String × String :=
  (⟨(splitExtChars s.data).1⟩, ⟨(splitExtChars s.data).2⟩)

/-- The `n`-th name tried by the collision loop: the base name itself,
then `f"{name}({counter}){ext}"` for `counter = 1, 2, …`. -/
def nameCandidate (baseName name ext : String) : Nat → String
  | 0 => baseName
  | n + 1 => name ++ "(" ++ Nat.repr (n + 1) ++ ")" ++ ext

/-- The `while final_name in existing_files` loop of `upload_files`
(sharepoint_wrapper.py lines 160-162), with an explicit recursion bound:
state is `(final_name, counter)` and each pass replaces `final_name` by
`f"{name}({counter}){ext}"` and increments `counter`. -/
def resolveLoop (existing : List String) (name ext : String) :
    Nat → String → Nat → Option String
  | 0, finalName, _ => if finalName ∈ existing then none else some finalName
  | fuel + 1, finalName, counter =>
    if finalName ∈ existing then
      resolveLoop existing name ext fuel
        (name ++ "(" ++ Nat.repr counter ++ ")" ++ ext) (counter + 1)
    else some finalName

/-- Final remote name chosen for one local file: the collision loop run
from `final_name = base_name`, `counter = 1`, bounded by one more pass
than the listing is long. -/
def finalNameFor (existing : List String) (baseName : String) : Option String :=
  resolveLoop existing (splitExt baseName).1 (splitExt baseName).2
    (existing.length + 1) baseName 1

/-- The `for file_path in file_paths` loop of `upload_files`
(sharepoint_wrapper.py lines 154-170): `existing` is the snapshot
`existing_files` captured once before the loop and never refreshed; each
upload appends the chosen name to the remote listing in the state. -/
def uploadLoop (mainName botName : String) (existing : List String) :
    List String → SPState → List SPEvent → Except SPError (SPState × List SPEvent)
  | [], st, evs => .ok (st, evs)
  | p :: ps, st, evs =>
    match finalNameFor existing (pathBase p) with
    | none => .error .nameSearchGaveUp
    | some fn =>
      uploadLoop mainName botName existing ps
        { st with
          filesOf := fun m s =>
            if m = mainName then
              if s = botName then st.filesOf m s ++ [fn] else st.filesOf m s
            else st.filesOf m s }
        (evs ++ [SPEvent.uploadFile mainName botName fn])

/-- `SharePointApi.upload_files` (sharepoint_wrapper.py lines 100-174):
resolve the main folder from the prefix, ensure the bot-named subfolder
(creating it only when absent from the subfolder listing), snapshot the
target folder's file listing once, then upload each file under its
collision-resolved name. -/
def uploadFiles (cfg : SPConfig) (st : SPState) (filePaths : List String) :
    Except SPError (SPState × List SPEvent) :=
  match resolveMainFolder cfg.folderLog st with
  | .error e => .error e
  | .ok mainFolderName =>
    let subfolderNames := st.subfoldersOf mainFolderName
    let ensured :=
      if cfg.botName ∈ subfolderNames then (st, ([] : List SPEvent))
      else
        ({ st with
            subfoldersOf := fun m =>
              if m = mainFolderName then st.subfoldersOf m ++ [cfg.botName]
              else st.subfoldersOf m },
          [SPEvent.createFolder mainFolderName cfg.botName])
    let existingFiles := ensured.1.filesOf mainFolderName cfg.botName
    uploadLoop mainFolderName cfg.botName existingFiles filePaths ensured.1 ensured.2

/-- Final names of the files uploaded by a (successful) `upload_files`
call, in upload order. -/
def uploadedNames (r : Except SPError (SPState × List SPEvent)) : List String :=
  match r with
  | .error _ => []
  | .ok (_, evs) =>
    evs.filterMap (fun e =>
      match e with
      | .uploadFile _ _ n => some n
      | _ => none)

/-- `true` on folder-creation events. -/
def isCreateFolder : SPEvent → Bool
  | .createFolder _ _ => true
  | _ => false

/-- Events of `d` consecutive failing iterations of the maestro loop
starting at iteration `i`, each followed by a retry (failure text of
invocation `j` given by `f j`). -/
def failIterEvents (env : Env) (f : Nat → String) : Nat → Nat → List Event
  | _, 0 => []
  | i, d + 1 =>
    (Event.taskCall i :: failEvents env (f i)) ++ [Event.postArtifact]
      ++ failIterEvents env f (i + 1) d

/-- Task-call events of `d` consecutive failing iterations of the local
loop starting at iteration `i` (its `except` handler emits nothing else). -/
def taskCallsFrom : Nat → Nat → List Event
  | _, 0 => []
  | i, d + 1 => Event.taskCall i :: taskCallsFrom (i + 1) d

/-!
## Concrete environments used by the witnesses
-/

/-- Maestro environment whose task body always fails, with the failure text
of invocation `k` being the decimal rendering of `k`. -/
def envW (mr : Int) : Env where
  maxRetries := mr
  useSharepoint := true
  useDatabase := true
  botName := "B"
  developer := "D"
  sector := "S"
  stakeholder := "K"
  recurrence := "daily"
  logPath := "L"
  task := fun k => Except.error (Nat.repr k)
  uploadOnSuccess := fun _ => none
  uploadOnFailure := fun _ => none
  execTime := fun _ => "T"

/-- Local environment whose task body always succeeds. -/
def envLW (mr : Int) : EnvL where
  maxRetries := mr
  useDatabase := true
  botName := "B"
  developer := "D"
  sector := "S"
  stakeholder := "K"
  recurrence := "daily"
  task := fun _ => Except.ok (some 1)
  listFoldersCall := fun _ => none
  uploadCall := fun _ => none
  execTime := fun _ => "T"

/-- Maestro environment whose task body fails on invocations below `k` and
then succeeds returning `some v`. -/
def envFK (mr : Int) (k : Nat) (v : Int) : Env where
  maxRetries := mr
  useSharepoint := true
  useDatabase := true
  botName := "B"
  developer := "D"
  sector := "S"
  stakeholder := "K"
  recurrence := "daily"
  logPath := "L"
  task := fun j => if j < k then Except.error (Nat.repr j) else Except.ok (some v)
  uploadOnSuccess := fun _ => none
  uploadOnFailure := fun _ => none
  execTime := fun _ => "T"

/-- Local environment whose task body fails on invocations below `k` and
then succeeds returning `some v`. -/
def envLK (mr : Int) (k : Nat) (v : Int) : EnvL where
  maxRetries := mr
  useDatabase := true
  botName := "B"
  developer := "D"
  sector := "S"
  stakeholder := "K"
  recurrence := "daily"
  task := fun j => if j < k then Except.error (Nat.repr j) else Except.ok (some v)
  listFoldersCall := fun _ => none
  uploadCall := fun _ => none
  execTime := fun _ => "T"

/-- Maestro environment where the task body always succeeds but the
success-branch sharepoint upload raises `"NotFound"` on the first attempt. -/
def envC3 : Env where
  maxRetries := 1
  useSharepoint := true
  useDatabase := true
  botName := "B"
  developer := "D"
  sector := "S"
  stakeholder := "K"
  recurrence := "daily"
  logPath := "L"
  task := fun _ => Except.ok (some 1)
  uploadOnSuccess := fun i => if i = 0 then some "NotFound" else none
  uploadOnFailure := fun _ => none
  execTime := fun _ => "T"

/-- As `envC3` but with no retry budget. -/
def envC3b : Env where
  maxRetries := 0
  useSharepoint := true
  useDatabase := true
  botName := "B"
  developer := "D"
  sector := "S"
  stakeholder := "K"
  recurrence := "daily"
  logPath := "L"
  task := fun _ => Except.ok (some 1)
  uploadOnSuccess := fun i => if i = 0 then some "NotFound" else none
  uploadOnFailure := fun _ => none
  execTime := fun _ => "T"

/-- Declarative reading of the regular expression `^<folderLog>\s+-` used
by `list_folders_by_number`: the name starts with the prefix, then one or
more whitespace characters, then a hyphen (and then anything). -/
def MatchesLogPattern (folderLog name : String) : Prop :=
  ∃ ws rest : List Char, ws ≠ [] ∧ (∀ c ∈ ws, isPySpace c = true) ∧
    name.data = folderLog.data ++ ws ++ '-' :: rest

/-- Remote state with a matching main folder, the bot subfolder already
present, and an empty target-folder listing. -/
def stBatch : SPState where
  rootFolders := ["10 - Logs"]
  subfoldersOf := fun m => if m = "10 - Logs" then ["MyBot"] else []
  filesOf := fun _ _ => []

/-- Remote state with a matching main folder, the bot subfolder already
present, and one file `a.log` in the target folder. -/
def stC9 : SPState where
  rootFolders := ["10 - Logs", "11 - Other"]
  subfoldersOf := fun m => if m = "10 - Logs" then ["MyBot", "Other"] else []
  filesOf := fun m s =>
    if m = "10 - Logs" then (if s = "MyBot" then ["a.log"] else []) else []

/-- `stC9` after `upload_files` stored `a.log` under the collision-resolved
name `a(1).log`. -/
def stC9u : SPState :=
  { stC9 with
    filesOf := fun m s =>
      if m = "10 - Logs" then
        if s = "MyBot" then stC9.filesOf m s ++ ["a(1).log"] else stC9.filesOf m s
      else stC9.filesOf m s }

/-!
## Unfolding lemmas for the maestro retry loop
-/

lemma runLoopF_guard_false (env : Env) (i fuel : Nat)
    (h : ¬ (i : Int) ≤ env.maxRetries) : runLoopF env i (fuel + 1) = ([], none) := by
  simp [runLoopF, h]

lemma runLoopF_step_fail (env : Env) (i fuel : Nat) (e : String)
    (hg : (i : Int) ≤ env.maxRetries) (ht : env.task i = Except.error e)
    (hr : (i : Int) + 1 ≤ env.maxRetries) :
    runLoopF env i (fuel + 1) =
      ((Event.taskCall i :: failEvents env e) ++ [Event.postArtifact]
          ++ (runLoopF env (i + 1) fuel).1,
        (runLoopF env (i + 1) fuel).2) := by
  have hr' : ¬ (i : Int) + 1 > env.maxRetries := not_lt.mpr hr
  simp [runLoopF, hg, ht, hr']

lemma runLoopF_last_fail (env : Env) (i fuel : Nat) (e : String)
    (hg : (i : Int) ≤ env.maxRetries) (ht : env.task i = Except.error e)
    (hr : env.maxRetries < (i : Int) + 1) :
    runLoopF env i (fuel + 1) =
      ((Event.taskCall i :: failEvents env e) ++ (exhaustedTail env i e).1,
        (exhaustedTail env i e).2) := by
  simp [runLoopF, hg, ht, hr]

lemma runLoopF_step_success (env : Env) (i fuel : Nat) (items : Option Int)
    (hg : (i : Int) ≤ env.maxRetries) (ht : env.task i = Except.ok items)
    (hu : env.useSharepoint = true → env.uploadOnSuccess i = none) :
    runLoopF env i (fuel + 1) = (successTrace env i items, none) := by
  have hcond : (if env.useSharepoint then env.uploadOnSuccess i else none) = none := by
    cases hsp : env.useSharepoint
    · simp
    · simpa using hu hsp
  simp [runLoopF, hg, ht, hcond]

lemma runLoopF_step_uploadFail (env : Env) (i fuel : Nat) (e : String)
    (items : Option Int)
    (hsp : env.useSharepoint = true) (ht : env.task i = Except.ok items)
    (hue : env.uploadOnSuccess i = some e)
    (hr : (i : Int) + 1 ≤ env.maxRetries) :
    runLoopF env i (fuel + 1) =
      (([Event.taskCall i, Event.sharepointUpload i] ++ failEvents env e)
          ++ [Event.postArtifact] ++ (runLoopF env (i + 1) fuel).1,
        (runLoopF env (i + 1) fuel).2) := by
  have hg : (i : Int) ≤ env.maxRetries := by omega
  have hr' : ¬ (i : Int) + 1 > env.maxRetries := not_lt.mpr hr
  simp [runLoopF, hg, ht, hsp, hue, hr']

lemma runLoopF_last_uploadFail (env : Env) (i fuel : Nat) (e : String)
    (items : Option Int)
    (hsp : env.useSharepoint = true) (ht : env.task i = Except.ok items)
    (hue : env.uploadOnSuccess i = some e)
    (hg : (i : Int) ≤ env.maxRetries) (hr : env.maxRetries < (i : Int) + 1) :
    runLoopF env i (fuel + 1) =
      (([Event.taskCall i, Event.sharepointUpload i] ++ failEvents env e)
          ++ (exhaustedTail env i e).1,
        (exhaustedTail env i e).2) := by
  simp [runLoopF, hg, ht, hsp, hue, hr]

lemma exhaustedTail_snd (env : Env) (i : Nat) (e : String)
    (hu : env.uploadOnFailure i = none) : (exhaustedTail env i e).2 = some e := by
  cases hsp : env.useSharepoint <;> simp [exhaustedTail, hsp, hu]

/-!
## Counting lemmas
-/

lemma taskCount_append (a b : List Event) :
    taskCount (a ++ b) = taskCount a + taskCount b :=
  List.countP_append _ _ _

lemma taskCount_cons (ev : Event) (t : List Event) :
    taskCount (ev :: t) = taskCount t + if isTaskCall ev then 1 else 0 :=
  List.countP_cons _ _ _

lemma taskCount_nil : taskCount [] = 0 := rfl

lemma taskCount_dbTrace (bn dev sec stk rec et : String) (db : Bool)
    (items : Option Int) : taskCount (dbTrace bn dev sec stk rec et db items) = 0 := by
  cases db <;> rcases items with _ | v <;> simp [dbTrace, taskCount, isTaskCall]

lemma taskCount_exhaustedTail (env : Env) (i : Nat) (e : String) :
    taskCount (exhaustedTail env i e).1 = 0 := by
  cases hsp : env.useSharepoint <;> simp [exhaustedTail, hsp] <;> rfl

lemma taskCount_successTrace (env : Env) (i : Nat) (items : Option Int) :
    taskCount (successTrace env i items) = 1 := by
  cases hsp : env.useSharepoint <;>
    simp [successTrace, hsp, taskCount_append, taskCount_cons, taskCount_nil,
      taskCount_dbTrace, isTaskCall]

/-!
## Traces of runs of failing iterations
-/


lemma taskCount_failEvents (env : Env) (e : String) :
    taskCount (failEvents env e) = 0 := rfl

lemma taskCount_failIterEvents (env : Env) (f : Nat → String) :
    ∀ d i, taskCount (failIterEvents env f i d) = d := by
  intro d
  induction d with
  | zero => intro i; rfl
  | succ d ih =>
    intro i
    simp [failIterEvents, taskCount_append, taskCount_cons, taskCount_nil,
      failEvents, isTaskCall, ih]

/-- The maestro loop on `d` failing iterations starting at `i`, all within
the retry budget, unfolds to the `d` failure blocks followed by the loop
resumed at `i + d`. -/
lemma runLoopF_fail_prefix (env : Env) (f : Nat → String) :
    ∀ (d i fuel : Nat),
      (∀ j, i ≤ j → j < i + d → env.task j = Except.error (f j)) →
      ((i + d : Nat) : Int) ≤ env.maxRetries →
      runLoopF env i (d + fuel) =
        (failIterEvents env f i d ++ (runLoopF env (i + d) fuel).1,
          (runLoopF env (i + d) fuel).2) := by
  intro d
  induction d with
  | zero => intro i fuel _ _; simp [failIterEvents]
  | succ d ih =>
    intro i fuel hfail hle
    have hle' : (i : Int) + (d + 1 : Nat) ≤ env.maxRetries := by
      push_cast at hle ⊢; omega
    have hg : (i : Int) ≤ env.maxRetries := by push_cast at hle' ⊢; omega
    have ht : env.task i = Except.error (f i) := hfail i le_rfl (by omega)
    have hr : (i : Int) + 1 ≤ env.maxRetries := by push_cast at hle' ⊢; omega
    have hfuel : d + 1 + fuel = (d + fuel) + 1 := by omega
    rw [hfuel, runLoopF_step_fail env i (d + fuel) (f i) hg ht hr,
      ih (i + 1) fuel (fun j h1 h2 => hfail j (by omega) (by omega))
        (by push_cast at hle ⊢; omega)]
    have hidx : i + 1 + d = i + (d + 1) := by omega
    rw [hidx]
    simp [failIterEvents, List.append_assoc]

/-!
## More counting and filtering lemmas
-/

lemma countP_finish_dbTrace (bn dev sec stk rec et : String) (db : Bool)
    (items : Option Int) :
    (dbTrace bn dev sec stk rec et db items).countP isFinishSuccess = 0 := by
  cases db <;> rcases items with _ | v <;> simp [dbTrace, isFinishSuccess]

lemma filter_db_dbTrace (bn dev sec stk rec et : String) (db : Bool)
    (items : Option Int) :
    (dbTrace bn dev sec stk rec et db items).filter isDbInsert =
      dbTrace bn dev sec stk rec et db items := by
  cases db <;> rcases items with _ | v <;> simp [dbTrace, isDbInsert]

lemma countP_finish_failIterEvents (env : Env) (f : Nat → String) :
    ∀ d i, (failIterEvents env f i d).countP isFinishSuccess = 0 := by
  intro d
  induction d with
  | zero => intro i; rfl
  | succ d ih =>
    intro i
    simp [failIterEvents, failEvents, isFinishSuccess, ih]

lemma filter_db_failIterEvents (env : Env) (f : Nat → String) :
    ∀ d i, (failIterEvents env f i d).filter isDbInsert = [] := by
  intro d
  induction d with
  | zero => intro i; rfl
  | succ d ih =>
    intro i
    simp [failIterEvents, failEvents, isDbInsert, ih]

lemma countP_finish_successTrace (env : Env) (i : Nat) (items : Option Int) :
    (successTrace env i items).countP isFinishSuccess = 1 := by
  cases hsp : env.useSharepoint <;>
    simp [successTrace, hsp, isFinishSuccess, countP_finish_dbTrace]

lemma filter_db_successTrace (env : Env) (i : Nat) (items : Option Int) :
    (successTrace env i items).filter isDbInsert =
      dbTrace env.botName env.developer env.sector env.stakeholder
        env.recurrence (env.execTime i) env.useDatabase items := by
  cases hsp : env.useSharepoint <;>
    simp [successTrace, hsp, isDbInsert, filter_db_dbTrace]

/-!
## Local-runner unfolding lemmas
-/

lemma runLocalF_step_fail (env : EnvL) (i fuel : Nat) (e : String)
    (hg : (i : Int) ≤ env.maxRetries) (ht : env.task i = Except.error e)
    (hr : (i : Int) + 1 ≤ env.maxRetries) :
    runLocalF env i (fuel + 1) =
      (Event.taskCall i :: (runLocalF env (i + 1) fuel).1,
        (runLocalF env (i + 1) fuel).2) := by
  have hr' : ¬ (i : Int) + 1 > env.maxRetries := not_lt.mpr hr
  simp [runLocalF, hg, ht, hr']

lemma runLocalF_last_fail (env : EnvL) (i fuel : Nat) (e : String)
    (hg : (i : Int) ≤ env.maxRetries) (ht : env.task i = Except.error e)
    (hr : env.maxRetries < (i : Int) + 1) :
    runLocalF env i (fuel + 1) = ([Event.taskCall i], some e) := by
  simp [runLocalF, hg, ht, hr]

lemma runLocalF_step_success (env : EnvL) (i fuel : Nat) (items : Option Int)
    (hg : (i : Int) ≤ env.maxRetries) (ht : env.task i = Except.ok items)
    (hl : env.listFoldersCall i = none) (hu : env.uploadCall i = none) :
    runLocalF env i (fuel + 1) = (localSuccessTrace env i items, none) := by
  simp [runLocalF, hg, ht, hl, hu]


lemma taskCount_taskCallsFrom : ∀ d i, taskCount (taskCallsFrom i d) = d := by
  intro d
  induction d with
  | zero => intro i; rfl
  | succ d ih => intro i; simp [taskCallsFrom, taskCount_cons, isTaskCall, ih]

lemma runLocalF_fail_prefix (env : EnvL) (f : Nat → String) :
    ∀ (d i fuel : Nat),
      (∀ j, i ≤ j → j < i + d → env.task j = Except.error (f j)) →
      ((i + d : Nat) : Int) ≤ env.maxRetries →
      runLocalF env i (d + fuel) =
        (taskCallsFrom i d ++ (runLocalF env (i + d) fuel).1,
          (runLocalF env (i + d) fuel).2) := by
  intro d
  induction d with
  | zero => intro i fuel _ _; simp [taskCallsFrom]
  | succ d ih =>
    intro i fuel hfail hle
    have hle' : (i : Int) + (d + 1 : Nat) ≤ env.maxRetries := by
      push_cast at hle ⊢; omega
    have hg : (i : Int) ≤ env.maxRetries := by push_cast at hle' ⊢; omega
    have ht : env.task i = Except.error (f i) := hfail i le_rfl (by omega)
    have hr : (i : Int) + 1 ≤ env.maxRetries := by push_cast at hle' ⊢; omega
    have hfuel : d + 1 + fuel = (d + fuel) + 1 := by omega
    rw [hfuel, runLocalF_step_fail env i (d + fuel) (f i) hg ht hr,
      ih (i + 1) fuel (fun j h1 h2 => hfail j (by omega) (by omega))
        (by push_cast at hle ⊢; omega)]
    have hidx : i + 1 + d = i + (d + 1) := by omega
    rw [hidx]
    simp [taskCallsFrom]

lemma taskCount_localSuccessTrace (env : EnvL) (i : Nat) (items : Option Int) :
    taskCount (localSuccessTrace env i items) = 1 := by
  simp [localSuccessTrace, taskCount_append, taskCount_cons, taskCount_nil,
    taskCount_dbTrace, isTaskCall]

/-!
## Full-run characterizations
-/

/-- A maestro run whose task body fails on every invocation: `N` failing
iterations with retries, then the final failing iteration and the
exhausted tail. -/
lemma runMaestro_all_fail (env : Env) (N : Nat) (f : Nat → String)
    (hN : env.maxRetries = N)
    (ht : ∀ k, env.task k = Except.error (f k)) :
    runMaestro env =
      (failIterEvents env f 0 N
          ++ ((Event.taskCall N :: failEvents env (f N))
            ++ (exhaustedTail env N (f N)).1),
        (exhaustedTail env N (f N)).2) := by
  have hfuel : (env.maxRetries + 1).toNat = N + 1 := by rw [hN]; omega
  have hpre := runLoopF_fail_prefix env f N 0 1
    (fun j _ _ => ht j) (by rw [hN]; omega)
  rw [Nat.zero_add] at hpre
  have hlast := runLoopF_last_fail env N 0 (f N)
    (by rw [hN]) (ht N) (by rw [hN]; omega)
  rw [Nat.zero_add] at hlast
  unfold runMaestro
  rw [hfuel, hpre, hlast]

/-- A maestro run whose task body fails on invocations `0..k-1` and
succeeds on invocation `k ≤ N` (with the success-branch upload not
raising): `k` failing iterations then the success trace, normal return. -/
lemma runMaestro_fail_then_success (env : Env) (N k : Nat) (f : Nat → String)
    (items : Option Int)
    (hN : env.maxRetries = N) (hk : k ≤ N)
    (hfail : ∀ j, j < k → env.task j = Except.error (f j))
    (hok : env.task k = Except.ok items)
    (hupl : env.useSharepoint = true → env.uploadOnSuccess k = none) :
    runMaestro env = (failIterEvents env f 0 k ++ successTrace env k items, none) := by
  have hfuel : (env.maxRetries + 1).toNat = N + 1 := by rw [hN]; omega
  have hsplit : N + 1 = k + (N - k + 1) := by omega
  have hpre := runLoopF_fail_prefix env f k 0 (N - k + 1)
    (fun j _ hj => hfail j (by omega)) (by rw [hN]; push_cast; omega)
  rw [Nat.zero_add] at hpre
  have hstep := runLoopF_step_success env k (N - k) items
    (by rw [hN]; omega) hok hupl
  unfold runMaestro
  rw [hfuel, hsplit, hpre, hstep]

/-- The local analogue of `runMaestro_fail_then_success`. -/
lemma runLocal_fail_then_success (env : EnvL) (N k : Nat) (f : Nat → String)
    (items : Option Int)
    (hN : env.maxRetries = N) (hk : k ≤ N)
    (hfail : ∀ j, j < k → env.task j = Except.error (f j))
    (hok : env.task k = Except.ok items)
    (hlist : env.listFoldersCall k = none) (hupl : env.uploadCall k = none) :
    runLocal env = (taskCallsFrom 0 k ++ localSuccessTrace env k items, none) := by
  have hfuel : (env.maxRetries + 1).toNat = N + 1 := by rw [hN]; omega
  have hsplit : N + 1 = k + (N - k + 1) := by omega
  have hpre := runLocalF_fail_prefix env f k 0 (N - k + 1)
    (fun j _ hj => hfail j (by omega)) (by rw [hN]; push_cast; omega)
  rw [Nat.zero_add] at hpre
  have hstep := runLocalF_step_success env k (N - k) items
    (by rw [hN]; omega) hok hlist hupl
  unfold runLocal
  rw [hfuel, hsplit, hpre, hstep]


/-!
## Claims
-/

/-- C10: when the configured retry ceiling `MAX_RETRIES` is negative, the
guard `attempts <= settings.MAX_RETRIES` of both `BotRunnerMaestro.run` and
`BotRunnerLocal.run` is false at `attempts = 0`, so `run()` returns
normally with an empty trace: the task body is never invoked and no
report, upload, or artifact post happens. -/
theorem C10_negative_max_retries_no_attempt (env : Env) (envL : EnvL)
    (hm : env.maxRetries < 0) (hl : envL.maxRetries < 0) :
    runMaestro env = ([], none) ∧ runLocal envL = ([], none) := by
  have h1 : (env.maxRetries + 1).toNat = 0 := by omega
  have h2 : (envL.maxRetries + 1).toNat = 0 := by omega
  unfold runMaestro runLocal
  rw [h1, h2]
  exact ⟨rfl, rfl⟩

/-- Witness for C10 at `MAX_RETRIES = -1`. -/
theorem C10_witness :
    runMaestro (envW (-1)) = ([], none) ∧ runLocal (envLW (-1)) = ([], none) :=
  C10_negative_max_retries_no_attempt (envW (-1)) (envLW (-1)) (by decide) (by decide)

/-- C8: on an attempt whose task body fails, `BotRunnerMaestro.run` reports
the error to Maestro with the current log file attached and marks the task
FAILED with the error text, before the retry decision is even looked at:
the trace of the iteration starts with exactly these three events for every
`i` within the loop guard, with no assumption on whether a retry follows. -/
theorem C8_failed_attempt_always_reported (env : Env) (i fuel : Nat) (e : String)
    (hg : (i : Int) ≤ env.maxRetries) (ht : env.task i = Except.error e) :
    ∃ rest, (runLoopF env i (fuel + 1)).1 =
      Event.taskCall i :: Event.errorReport e [env.logPath]
        :: Event.finishFailed e :: rest := by
  by_cases hr : (i : Int) + 1 ≤ env.maxRetries
  · rw [runLoopF_step_fail env i fuel e hg ht hr]
    exact ⟨[Event.postArtifact] ++ (runLoopF env (i + 1) fuel).1, by simp [failEvents]⟩
  · rw [runLoopF_last_fail env i fuel e hg ht (by omega)]
    exact ⟨(exhaustedTail env i e).1, by simp [failEvents]⟩

/-- Witness for C8 at an intermediate failure (attempt 1 of 3, a retry
will follow). -/
theorem C8_witness :
    ∃ rest, (runLoopF (envW 2) 1 (1 + 1)).1 =
      Event.taskCall 1 :: Event.errorReport "1" [(envW 2).logPath]
        :: Event.finishFailed "1" :: rest :=
  C8_failed_attempt_always_reported (envW 2) 1 1 "1" (by decide) rfl

/-- C3 counterexample: the claim says an Uploader error raised during the
success reporting branch is not caught and aborts `run()`.  In `envC3` the
task body succeeds on attempt 0, the uploader raises `"NotFound"` in the
success branch, and yet `run()` returns normally (after one retry): the
error was caught by the `except Exception` handler of the loop. -/
theorem C3_counterexample :
    envC3.task 0 = Except.ok (some 1) ∧
    envC3.useSharepoint = true ∧
    envC3.uploadOnSuccess 0 = some "NotFound" ∧
    (runMaestro envC3).2 = none ∧
    taskCount (runMaestro envC3).1 = 2 :=
  ⟨rfl, rfl, rfl, by decide, by decide⟩

/-- C3 amended: an error raised by the Uploader (or the Resolver inside it)
during the success reporting branch is caught by the retry handler of
`BotRunnerMaestro.run`: the attempt is error-reported and marked FAILED and
the loop proceeds to the next attempt; such an error propagates out of
`run()` only when it lands past the retry budget (and then the
exhausted-branch upload, if it raises, is likewise uncaught). -/
theorem C3_amended_upload_error_caught (env : Env) (i fuel : Nat) (e : String)
    (items : Option Int)
    (hsp : env.useSharepoint = true) (ht : env.task i = Except.ok items)
    (hue : env.uploadOnSuccess i = some e) :
    ((i : Int) + 1 ≤ env.maxRetries →
      runLoopF env i (fuel + 1) =
        (([Event.taskCall i, Event.sharepointUpload i] ++ failEvents env e)
            ++ [Event.postArtifact] ++ (runLoopF env (i + 1) fuel).1,
          (runLoopF env (i + 1) fuel).2)) ∧
    ((i : Int) ≤ env.maxRetries → env.maxRetries < (i : Int) + 1 →
      env.uploadOnFailure i = none →
      (runLoopF env i (fuel + 1)).2 = some e) := by
  constructor
  · intro hr
    exact runLoopF_step_uploadFail env i fuel e items hsp ht hue hr
  · intro hg hr hfu
    rw [runLoopF_last_uploadFail env i fuel e items hsp ht hue hg hr]
    exact exhaustedTail_snd env i e hfu

/-- Witness for the amended C3: in `envC3` the attempt-0 upload error is
caught and the loop continues; in `envC3b` (no retry budget) it propagates. -/
theorem C3_amended_witness :
    (runLoopF envC3 0 (1 + 1) =
      (([Event.taskCall 0, Event.sharepointUpload 0] ++ failEvents envC3 "NotFound")
          ++ [Event.postArtifact] ++ (runLoopF envC3 (0 + 1) 1).1,
        (runLoopF envC3 (0 + 1) 1).2)) ∧
    (runLoopF envC3b 0 (0 + 1)).2 = some "NotFound" :=
  ⟨(C3_amended_upload_error_caught envC3 0 1 "NotFound" (some 1) rfl rfl rfl).1
      (by decide),
    (C3_amended_upload_error_caught envC3b 0 0 "NotFound" (some 1) rfl rfl rfl).2
      (by decide) (by decide) rfl⟩

/-- C1: with `MAX_RETRIES = N ≥ 0` and a task body that fails on every
invocation, `BotRunnerMaestro.run` invokes the task body exactly `N + 1`
times (attempt 0 plus up to `N` retries) and then propagates the failure of
the last invocation to the caller. -/
theorem C1_always_failing_runs_n_plus_one (env : Env) (N : Nat) (f : Nat → String)
    (hN : env.maxRetries = N)
    (ht : ∀ k, env.task k = Except.error (f k))
    (hu : env.uploadOnFailure N = none) :
    taskCount (runMaestro env).1 = N + 1 ∧ (runMaestro env).2 = some (f N) := by
  rw [runMaestro_all_fail env N f hN ht]
  constructor
  · simp [taskCount_append, taskCount_failIterEvents, taskCount_cons,
      taskCount_failEvents, taskCount_exhaustedTail, isTaskCall]
  · exact exhaustedTail_snd env N (f N) hu

/-- Witness for C1 at `MAX_RETRIES = 2`: three task-body invocations, then
the failure of invocation 2 propagates. -/
theorem C1_witness :
    taskCount (runMaestro (envW 2)).1 = 2 + 1 ∧
      (runMaestro (envW 2)).2 = some (Nat.repr 2) :=
  C1_always_failing_runs_n_plus_one (envW 2) 2 Nat.repr rfl (fun _ => rfl) rfl

/-- C2: with `MAX_RETRIES = N` and a task body that fails on invocations
`0..k-1` and succeeds on invocation `k ≤ N`, both runners invoke the task
body exactly `k + 1` times and `run()` returns normally — after the
successful attempt the loop `break`s, so no further invocation occurs.
(The success-branch collaborator calls are assumed not to raise.) -/
theorem C2_success_on_k_stops_loop (env : Env) (envL : EnvL) (N k M l : Nat)
    (f g : Nat → String) (items itemsL : Option Int)
    (hN : env.maxRetries = N) (hk : k ≤ N)
    (hfail : ∀ j, j < k → env.task j = Except.error (f j))
    (hok : env.task k = Except.ok items)
    (hupl : env.useSharepoint = true → env.uploadOnSuccess k = none)
    (hM : envL.maxRetries = M) (hl : l ≤ M)
    (hfailL : ∀ j, j < l → envL.task j = Except.error (g j))
    (hokL : envL.task l = Except.ok itemsL)
    (hlist : envL.listFoldersCall l = none) (hupL : envL.uploadCall l = none) :
    (taskCount (runMaestro env).1 = k + 1 ∧ (runMaestro env).2 = none) ∧
    (taskCount (runLocal envL).1 = l + 1 ∧ (runLocal envL).2 = none) := by
  constructor
  · rw [runMaestro_fail_then_success env N k f items hN hk hfail hok hupl]
    constructor
    · simp [taskCount_append, taskCount_failIterEvents, taskCount_successTrace]
    · rfl
  · rw [runLocal_fail_then_success envL M l g itemsL hM hl hfailL hokL hlist hupL]
    constructor
    · simp [taskCount_append, taskCount_taskCallsFrom, taskCount_localSuccessTrace]
    · rfl

/-- Witness for C2: maestro run with `MAX_RETRIES = 3`, success on
invocation 2; local run with `MAX_RETRIES = 2`, success on invocation 1. -/
theorem C2_witness :
    (taskCount (runMaestro (envFK 3 2 7)).1 = 2 + 1 ∧
        (runMaestro (envFK 3 2 7)).2 = none) ∧
    (taskCount (runLocal (envLK 2 1 1)).1 = 1 + 1 ∧
        (runLocal (envLK 2 1 1)).2 = none) :=
  C2_success_on_k_stops_loop (envFK 3 2 7) (envLK 2 1 1) 3 2 2 1
    Nat.repr Nat.repr (some 7) (some 1) rfl (by omega)
    (fun j hj => by simp [envFK, hj]) (by simp [envFK]) (fun _ => rfl)
    rfl (by omega)
    (fun j hj => by
      have h0 : j = 0 := by omega
      subst h0; rfl)
    (by simp [envLK]) rfl rfl

/-- C7: on the successful attempt `k` of a maestro run, the database
insert happens exactly when `USE_DATABASE` is set and the returned
`items_processed` is a positive count, and it carries the parameter tuple
`{botName, developer, sector, stakeholder, recurrence, executionTime,
itemsProcessed}`; `items_processed` being `None` or `0` is not an error
(the run still finishes SUCCESS).  The whole run makes `k + 1` task-body
invocations, exactly one SUCCESS finish, and returns normally. -/
theorem C7_db_insert_iff_configured_and_positive (env : Env) (N k : Nat)
    (f : Nat → String) (items : Option Int)
    (hN : env.maxRetries = N) (hk : k ≤ N)
    (hfail : ∀ j, j < k → env.task j = Except.error (f j))
    (hok : env.task k = Except.ok items)
    (hupl : env.useSharepoint = true → env.uploadOnSuccess k = none) :
    taskCount (runMaestro env).1 = k + 1 ∧
    (runMaestro env).1.countP isFinishSuccess = 1 ∧
    (runMaestro env).2 = none ∧
    (∀ v : Int, items = some v → 0 < v → env.useDatabase = true →
        (runMaestro env).1.filter isDbInsert =
          [Event.dbInsert ⟨env.botName, env.developer, env.sector,
            env.stakeholder, env.recurrence, env.execTime k, v⟩]) ∧
    ((env.useDatabase = false ∨ items = none ∨ (∃ v, items = some v ∧ v ≤ 0)) →
        (runMaestro env).1.filter isDbInsert = []) := by
  rw [runMaestro_fail_then_success env N k f items hN hk hfail hok hupl]
  refine ⟨?_, ?_, rfl, ?_, ?_⟩
  · simp [taskCount_append, taskCount_failIterEvents, taskCount_successTrace]
  · simp [List.countP_append, countP_finish_failIterEvents, countP_finish_successTrace]
  · intro v hv hpos hdb
    subst hv
    simp [List.filter_append, filter_db_failIterEvents, filter_db_successTrace,
      dbTrace, hdb, hpos]
  · intro hcase
    simp only [List.filter_append, filter_db_failIterEvents, filter_db_successTrace,
      List.nil_append]
    rcases hcase with hdb | hnone | ⟨v, hv, hle⟩
    · simp [dbTrace, hdb]
    · simp [dbTrace, hnone]
    · subst hv
      simp [dbTrace, not_lt.mpr hle]

/-- Witness for C7, the claim's scenario: `MAX_RETRIES = 2`, failures on
attempts 0 and 1, success on attempt 2 with `items_processed = 5`: three
invocations, one SUCCESS finish, normal return, and exactly one database
insert carrying the full parameter tuple with `itemsProcessed = 5`. -/
theorem C7_witness :
    taskCount (runMaestro (envFK 2 2 5)).1 = 2 + 1 ∧
    (runMaestro (envFK 2 2 5)).1.countP isFinishSuccess = 1 ∧
    (runMaestro (envFK 2 2 5)).2 = none ∧
    (∀ v : Int, (some (5 : Int) : Option Int) = some v → 0 < v →
        (envFK 2 2 5).useDatabase = true →
        (runMaestro (envFK 2 2 5)).1.filter isDbInsert =
          [Event.dbInsert ⟨(envFK 2 2 5).botName, (envFK 2 2 5).developer,
            (envFK 2 2 5).sector, (envFK 2 2 5).stakeholder,
            (envFK 2 2 5).recurrence, (envFK 2 2 5).execTime 2, v⟩]) ∧
    (((envFK 2 2 5).useDatabase = false ∨ (some (5 : Int) : Option Int) = none ∨
        (∃ v, (some (5 : Int) : Option Int) = some v ∧ v ≤ 0)) →
        (runMaestro (envFK 2 2 5)).1.filter isDbInsert = []) :=
  C7_db_insert_iff_configured_and_positive (envFK 2 2 5) 2 2 Nat.repr
    (some 5) rfl (by omega) (fun j hj => by simp [envFK, hj])
    (by simp [envFK]) (fun _ => rfl)

/-!
## The regular expression of the folder resolver
-/

lemma dropExactChars_eq_some (ps : List Char) :
    ∀ (cs rest : List Char), dropExactChars ps cs = some rest ↔ cs = ps ++ rest := by
  induction ps with
  | nil => intro cs rest; simp [dropExactChars]
  | cons p ps ih =>
    intro cs rest
    cases cs with
    | nil => simp [dropExactChars]
    | cons c cs =>
      by_cases hc : c = p
      · subst hc
        simp [dropExactChars, ih]
      · simp [dropExactChars, hc]

lemma spaceDash_iff (cs : List Char) :
    spaceDash cs = true ↔
      ∃ ws rest : List Char, (∀ c ∈ ws, isPySpace c = true) ∧
        cs = ws ++ '-' :: rest := by
  induction cs with
  | nil =>
    simp only [spaceDash, Bool.false_eq_true, false_iff]
    rintro ⟨ws, rest, -, h⟩
    exact absurd h.symm (List.append_ne_nil_of_right_ne_nil ws (by simp))
  | cons c cs ih =>
    by_cases hdash : c = '-'
    · subst hdash
      constructor
      · intro _
        exact ⟨[], cs, by simp, rfl⟩
      · intro _
        simp [spaceDash]
    · by_cases hsp : isPySpace c = true
      · rw [show spaceDash (c :: cs) = spaceDash cs by simp [spaceDash, hdash, hsp], ih]
        constructor
        · rintro ⟨ws, rest, hws, rfl⟩
          exact ⟨c :: ws, rest, by
            intro x hx
            rcases List.mem_cons.mp hx with rfl | hx
            · exact hsp
            · exact hws x hx, rfl⟩
        · rintro ⟨ws, rest, hws, heq⟩
          cases ws with
          | nil => exact absurd (List.head_eq_of_cons_eq heq) hdash
          | cons w ws =>
            obtain ⟨rfl, htail⟩ := List.cons_eq_cons.mp heq
            exact ⟨ws, rest, fun x hx => hws x (List.mem_cons_of_mem _ hx), htail⟩
      · rw [show spaceDash (c :: cs) = false by simp [spaceDash, hdash, hsp]]
        simp only [Bool.false_eq_true, false_iff]
        rintro ⟨ws, rest, hws, heq⟩
        cases ws with
        | nil => exact hdash (List.head_eq_of_cons_eq heq)
        | cons w ws =>
          obtain ⟨rfl, -⟩ := List.cons_eq_cons.mp heq
          exact hsp (hws c (List.mem_cons_self c ws))

lemma spaceRunDash_iff (cs : List Char) :
    spaceRunDash cs = true ↔
      ∃ ws rest : List Char, ws ≠ [] ∧ (∀ c ∈ ws, isPySpace c = true) ∧
        cs = ws ++ '-' :: rest := by
  cases cs with
  | nil =>
    simp only [spaceRunDash, Bool.false_eq_true, false_iff]
    rintro ⟨ws, rest, -, -, h⟩
    exact absurd h.symm (List.append_ne_nil_of_right_ne_nil ws (by simp))
  | cons c cs =>
    simp only [spaceRunDash, Bool.and_eq_true]
    rw [spaceDash_iff]
    constructor
    · rintro ⟨hc, ws, rest, hws, rfl⟩
      exact ⟨c :: ws, rest, by simp, by
        intro x hx
        rcases List.mem_cons.mp hx with rfl | hx
        · exact hc
        · exact hws x hx, rfl⟩
    · rintro ⟨ws, rest, hne, hws, heq⟩
      cases ws with
      | nil => exact absurd rfl hne
      | cons w ws =>
        obtain ⟨rfl, htail⟩ := List.cons_eq_cons.mp heq
        exact ⟨hws c (List.mem_cons_self c ws),
          ws, rest, fun x hx => hws x (List.mem_cons_of_mem _ hx), htail⟩

lemma spMatches_iff (folderLog name : String) :
    spMatches folderLog name = true ↔ MatchesLogPattern folderLog name := by
  unfold spMatches MatchesLogPattern
  cases hdrop : dropExactChars folderLog.data name.data with
  | none =>
    simp only [Bool.false_eq_true, false_iff]
    rintro ⟨ws, rest, -, -, heq⟩
    have : dropExactChars folderLog.data name.data = some (ws ++ '-' :: rest) :=
      (dropExactChars_eq_some _ _ _).mpr (by rw [heq, List.append_assoc])
    rw [hdrop] at this
    exact Option.noConfusion this
  | some rest0 =>
    have hname : name.data = folderLog.data ++ rest0 :=
      (dropExactChars_eq_some _ _ _).mp hdrop
    rw [spaceRunDash_iff]
    constructor
    · rintro ⟨ws, rest, hne, hws, rfl⟩
      exact ⟨ws, rest, hne, hws, by rw [hname, List.append_assoc]⟩
    · rintro ⟨ws, rest, hne, hws, heq⟩
      refine ⟨ws, rest, hne, hws, ?_⟩
      have h2 : folderLog.data ++ rest0 = folderLog.data ++ (ws ++ '-' :: rest) := by
        rw [← hname, heq, List.append_assoc]
      exact List.append_cancel_left h2

/-- C6: `upload_files` raises its "No folder found" error exactly when no
name in the root listing matches `^<folder_log>\s+-`; when at least one
matches, the resolved target is the first matching name in listing order. -/
theorem C6_folder_resolution (folderLog : String) (st : SPState) :
    (resolveMainFolder folderLog st = Except.error (SPError.notFound folderLog) ↔
        ∀ name ∈ st.rootFolders, ¬ MatchesLogPattern folderLog name)
    ∧ (∀ m : String, resolveMainFolder folderLog st = Except.ok m ↔
        MatchesLogPattern folderLog m ∧
        ∃ pre post, st.rootFolders = pre ++ m :: post ∧
          ∀ n ∈ pre, ¬ MatchesLogPattern folderLog n) := by
  constructor
  · unfold resolveMainFolder listFoldersByNumber
    cases hf : st.rootFolders.filter (fun name => spMatches folderLog name) with
    | nil =>
      simp only [true_iff]
      intro name hmem hM
      have : name ∈ st.rootFolders.filter (fun name => spMatches folderLog name) :=
        List.mem_filter.mpr ⟨hmem, (spMatches_iff _ _).mpr hM⟩
      rw [hf] at this
      exact absurd this (List.not_mem_nil name)
    | cons a rest =>
      simp only [reduceCtorEq, false_iff, not_forall]
      have ha : a ∈ st.rootFolders.filter (fun name => spMatches folderLog name) := by
        rw [hf]; exact List.mem_cons_self a rest
      obtain ⟨hmem, hp⟩ := List.mem_filter.mp ha
      exact ⟨a, hmem, by simpa using (spMatches_iff _ _).mp hp⟩
  · intro m
    unfold resolveMainFolder listFoldersByNumber
    cases hf : st.rootFolders.filter (fun name => spMatches folderLog name) with
    | nil =>
      simp only [reduceCtorEq, false_iff]
      rintro ⟨hM, pre, post, hdecomp, -⟩
      have : m ∈ st.rootFolders.filter (fun name => spMatches folderLog name) :=
        List.mem_filter.mpr ⟨by rw [hdecomp]; simp, (spMatches_iff _ _).mpr hM⟩
      rw [hf] at this
      exact absurd this (List.not_mem_nil m)
    | cons a rest =>
      constructor
      · intro hok
        have ham : a = m := by
          simpa using hok
        subst ham
        obtain ⟨l₁, l₂, hdecomp, hl₁, hpa, -⟩ := List.filter_eq_cons_iff.mp hf
        refine ⟨(spMatches_iff _ _).mp hpa, l₁, l₂, hdecomp, fun n hn hM => ?_⟩
        exact hl₁ n hn (by simpa using (spMatches_iff _ _).mpr hM)
      · rintro ⟨hM, pre, post, hdecomp, hpre⟩
        have hfil : st.rootFolders.filter (fun name => spMatches folderLog name) =
            m :: post.filter (fun name => spMatches folderLog name) := by
          rw [hdecomp, List.filter_append]
          have hnil : pre.filter (fun name => spMatches folderLog name) = [] :=
            List.filter_eq_nil_iff.mpr (fun x hx => by
              simpa using fun hsp => hpre x hx ((spMatches_iff _ _).mp hsp))
          rw [hnil]
          simp [List.filter_cons, (spMatches_iff _ _).mpr hM]
        rw [hf] at hfil
        obtain ⟨rfl, -⟩ := List.cons_eq_cons.mp hfil
        rfl

/-- Witness for C6: `"foo"` does not match the prefix `"10"`, so resolution
errors out on a one-folder listing; on `stC9` the first match `"10 - Logs"`
is resolved. -/
theorem C6_witness :
    resolveMainFolder "10" ⟨["foo"], fun _ => [], fun _ _ => []⟩ =
        Except.error (SPError.notFound "10") ∧
    resolveMainFolder "10" stC9 = Except.ok "10 - Logs" :=
  ⟨(C6_folder_resolution "10" ⟨["foo"], fun _ => [], fun _ _ => []⟩).1.mpr
      (fun name hmem hM => by
        have : spMatches "10" name = true := (spMatches_iff _ _).mpr hM
        have hname : name = "foo" := by simpa using hmem
        subst hname
        exact absurd this (by decide)),
    ((C6_folder_resolution "10" stC9).2 "10 - Logs").mpr
      ⟨⟨[' '], " Logs".data, by simp, by decide, by decide⟩,
        [], ["11 - Other"], rfl, by simp⟩⟩

/-!
## The collision-resolution loop
-/

lemma resolveLoop_spec (existing : List String) (baseName name ext : String) :
    ∀ (fuel k : Nat) (s : String),
      resolveLoop existing name ext fuel
          (nameCandidate baseName name ext k) (k + 1) = some s →
      ∃ n, k ≤ n ∧ s = nameCandidate baseName name ext n ∧
        nameCandidate baseName name ext n ∉ existing ∧
        ∀ m, k ≤ m → m < n → nameCandidate baseName name ext m ∈ existing := by
  intro fuel
  induction fuel with
  | zero =>
    intro k s h
    simp only [resolveLoop] at h
    by_cases hmem : nameCandidate baseName name ext k ∈ existing
    · rw [if_pos hmem] at h
      exact Option.noConfusion h
    · rw [if_neg hmem] at h
      obtain rfl := Option.some_injective _ h
      exact ⟨k, le_rfl, rfl, hmem, fun m h1 h2 => absurd h2 (by omega)⟩
  | succ fuel ih =>
    intro k s h
    simp only [resolveLoop] at h
    by_cases hmem : nameCandidate baseName name ext k ∈ existing
    · rw [if_pos hmem] at h
      have h' : resolveLoop existing name ext fuel
          (nameCandidate baseName name ext (k + 1)) ((k + 1) + 1) = some s := h
      obtain ⟨n, hn1, hn2, hn3, hn4⟩ := ih (k + 1) s h'
      refine ⟨n, by omega, hn2, hn3, fun m hm1 hm2 => ?_⟩
      rcases Nat.eq_or_lt_of_le hm1 with heq | hlt
      · rw [← heq]; exact hmem
      · exact hn4 m hlt hm2
    · rw [if_neg hmem] at h
      obtain rfl := Option.some_injective _ h
      exact ⟨k, le_rfl, rfl, hmem, fun m h1 h2 => absurd h2 (by omega)⟩

/-- C5: whenever the collision loop of `upload_files` returns a name, that
name is the first member of the candidate sequence `base_name`,
`name(1)ext`, `name(2)ext`, … that is absent from the file listing captured
at the start of the call: every earlier candidate is present in the
listing.  (Determinism is immediate: `finalNameFor` is a function of the
snapshot and the base name.) -/
theorem C5_first_free_candidate (existing : List String)
    (baseName name ext s : String)
    (hsplit : splitExt baseName = (name, ext))
    (hres : finalNameFor existing baseName = some s) :
    ∃ n, s = nameCandidate baseName name ext n ∧
      nameCandidate baseName name ext n ∉ existing ∧
      ∀ m, m < n → nameCandidate baseName name ext m ∈ existing := by
  unfold finalNameFor at hres
  rw [hsplit] at hres
  have hres' : resolveLoop existing name ext (existing.length + 1)
      (nameCandidate baseName name ext 0) (0 + 1) = some s := hres
  obtain ⟨n, -, h2, h3, h4⟩ :=
    resolveLoop_spec existing baseName name ext (existing.length + 1) 0 s hres'
  exact ⟨n, h2, h3, fun m hm => h4 m (Nat.zero_le m) hm⟩

/-- Witness for C5, the claim's instance: existing names
`{"a.log", "a(1).log")}` and local file `a.log` resolve to `a(2).log`,
which is the first free candidate. -/
theorem C5_witness :
    finalNameFor ["a.log", "a(1).log"] "a.log" = some "a(2).log" ∧
    ∃ n, "a(2).log" = nameCandidate "a.log" "a" ".log" n ∧
      nameCandidate "a.log" "a" ".log" n ∉ ["a.log", "a(1).log"] ∧
      ∀ m, m < n → nameCandidate "a.log" "a" ".log" m ∈ ["a.log", "a(1).log"] :=
  ⟨by decide,
    C5_first_free_candidate ["a.log", "a(1).log"] "a.log" "a" ".log" "a(2).log"
      (by decide) (by decide)⟩

/-!
## Batch uploads and the frame of the subfolder check
-/

lemma finalNameFor_not_mem (existing : List String) (baseName : String)
    (h : baseName ∉ existing) : finalNameFor existing baseName = some baseName := by
  unfold finalNameFor
  simp only [resolveLoop]
  rw [if_neg h]

/-- C4 counterexample: uploading `report.csv` twice in one call against an
empty target listing resolves BOTH files to `report.csv` — not
`report.csv` then `report(1).csv` as the claim states — because the
snapshot `existing_files` is never extended with names assigned earlier in
the same batch. -/
theorem C4_counterexample :
    stBatch.filesOf "10 - Logs" "MyBot" = [] ∧
    uploadedNames (uploadFiles ⟨"10", "MyBot"⟩ stBatch ["report.csv", "report.csv"]) =
      ["report.csv", "report.csv"] ∧
    uploadedNames (uploadFiles ⟨"10", "MyBot"⟩ stBatch ["report.csv", "report.csv"]) ≠
      ["report.csv", "report(1).csv"] := by decide

/-- C4 amended: collision detection consults only the remote listing
captured once at the start of the `upload_files` call; names assigned to
earlier files of the same batch are not taken into account, so two local
files with the same (not-yet-present) base name are both uploaded under
that very name. -/
theorem C4_amended_snapshot_only (cfg : SPConfig) (st : SPState)
    (p₁ p₂ main : String)
    (hm : resolveMainFolder cfg.folderLog st = Except.ok main)
    (hsub : cfg.botName ∈ st.subfoldersOf main)
    (hbase : pathBase p₂ = pathBase p₁)
    (hnew : pathBase p₁ ∉ st.filesOf main cfg.botName) :
    uploadedNames (uploadFiles cfg st [p₁, p₂]) = [pathBase p₁, pathBase p₁] := by
  have h1 : finalNameFor (st.filesOf main cfg.botName) (pathBase p₁) =
      some (pathBase p₁) := finalNameFor_not_mem _ _ hnew
  have h2 : finalNameFor (st.filesOf main cfg.botName) (pathBase p₂) =
      some (pathBase p₁) := by rw [hbase]; exact h1
  unfold uploadFiles
  rw [hm]
  simp only [if_pos hsub]
  simp [uploadLoop, h1, h2, uploadedNames]

/-- Witness for the amended C4 at the counterexample's input. -/
theorem C4_amended_witness :
    uploadedNames (uploadFiles ⟨"10", "MyBot"⟩ stBatch ["report.csv", "report.csv"]) =
      [pathBase "report.csv", pathBase "report.csv"] :=
  C4_amended_snapshot_only ⟨"10", "MyBot"⟩ stBatch "report.csv" "report.csv"
    "10 - Logs" rfl (by decide) rfl (by decide)

/-- `uploadLoop` only emits `uploadFile` events and only touches the file
listings: the root listing and the subfolder listings are unchanged. -/
lemma uploadLoop_frame (m b : String) (ex : List String) :
    ∀ (ps : List String) (st : SPState) (evs : List SPEvent)
      (st' : SPState) (evs' : List SPEvent),
      uploadLoop m b ex ps st evs = Except.ok (st', evs') →
      st'.rootFolders = st.rootFolders ∧ st'.subfoldersOf = st.subfoldersOf ∧
      ∃ extra, evs' = evs ++ extra ∧
        ∀ ev ∈ extra, ∃ n, ev = SPEvent.uploadFile m b n := by
  intro ps
  induction ps with
  | nil =>
    intro st evs st' evs' h
    simp only [uploadLoop, Except.ok.injEq, Prod.mk.injEq] at h
    obtain ⟨h1, h2⟩ := h
    subst h1; subst h2
    exact ⟨rfl, rfl, [], by simp, by simp⟩
  | cons p ps ih =>
    intro st evs st' evs' h
    simp only [uploadLoop] at h
    cases hf : finalNameFor ex (pathBase p) with
    | none => rw [hf] at h; exact Except.noConfusion h
    | some fn =>
      rw [hf] at h
      obtain ⟨h1, h2, extra, hevs, hall⟩ := ih _ _ _ _ h
      refine ⟨h1, h2, SPEvent.uploadFile m b fn :: extra, by simp [hevs], ?_⟩
      intro ev hev
      rcases List.mem_cons.mp hev with rfl | hev
      · exact ⟨fn, rfl⟩
      · exact hall ev hev

/-- C9: when the bot-named subfolder is already present in the subfolder
listing of the resolved main folder, `upload_files` performs no
create-folder call, and the remote folder structure (root listing and all
subfolder listings) is left unchanged — only file listings gain entries. -/
theorem C9_no_recreate_when_subfolder_exists (cfg : SPConfig) (st : SPState)
    (paths : List String) (main : String) (st' : SPState) (evs : List SPEvent)
    (hm : resolveMainFolder cfg.folderLog st = Except.ok main)
    (hsub : cfg.botName ∈ st.subfoldersOf main)
    (hok : uploadFiles cfg st paths = Except.ok (st', evs)) :
    (∀ ev ∈ evs, isCreateFolder ev = false) ∧
    st'.rootFolders = st.rootFolders ∧
    st'.subfoldersOf = st.subfoldersOf := by
  unfold uploadFiles at hok
  rw [hm] at hok
  simp only [if_pos hsub] at hok
  obtain ⟨h1, h2, extra, hevs, hall⟩ :=
    uploadLoop_frame main cfg.botName _ paths st [] st' evs hok
  refine ⟨?_, h1, h2⟩
  intro ev hev
  rw [hevs] at hev
  simp only [List.nil_append] at hev
  obtain ⟨n, rfl⟩ := hall ev hev
  rfl

/-- Witness for C9: `stC9` already contains the subfolder `MyBot`; the
upload of `a.log` emits only an upload event (under the collision-resolved
name) and leaves the folder structure untouched. -/
theorem C9_witness :
    (∀ ev ∈ [SPEvent.uploadFile "10 - Logs" "MyBot" "a(1).log"],
        isCreateFolder ev = false) ∧
    stC9u.rootFolders = stC9.rootFolders ∧
    stC9u.subfoldersOf = stC9.subfoldersOf :=
  C9_no_recreate_when_subfolder_exists ⟨"10", "MyBot"⟩ stC9 ["a.log"]
    "10 - Logs" stC9u [SPEvent.uploadFile "10 - Logs" "MyBot" "a(1).log"]
    rfl (by decide) rfl

end BotcityRPA
